import Mathlib

/-!
# The `CameraCapture` component of `src/App.js`

A shallow embedding of the single React component of the repository: its
state (the `useState` cells and the mounted `<video>` element), its event
handlers as pure transition functions that return the next state together
with the trace of effects they perform, and the browser built-ins the
handlers call (`split`, `padStart`, `atob`, `Blob`, `File`, `FormData`),
which are modelled after their standards.

Answers of the environment (the clock, the outcome of the upload, the outcome
of the media request, the user agent) are explicit arguments.
-/

namespace CameraCapture

/-! ## JavaScript strings -/

/-- A JavaScript string, as the list of its characters. -/
abbrev JSString := List Char

/-- `String.prototype.split` with a one-character separator: the pieces between
the occurrences of `sep`; the result always has at least one piece. -/
def split (sep : Char) : JSString → List JSString
  | [] => [[]]
  | c :: cs =>
    if c = sep then [] :: split sep cs
    else
      match split sep cs with
      | [] => [[c]]
      | piece :: more => (c :: piece) :: more

/-- `String.prototype.padStart(targetLength, padString)`. -/
def padStart (s : JSString) (targetLength : Nat) (padString : JSString) : JSString :=
  if targetLength ≤ s.length then s
  else if padString = [] then s
  else
    let fillLen := targetLength - s.length
    ((List.replicate fillLen padString).flatten.take fillLen) ++ s

/-- `Number.prototype.toString()` on a non-negative integer: its decimal digits. -/
def numberToString (n : Nat) : JSString := Nat.toDigits 10 n

/-- ASCII lower-casing of one character. -/
def asciiLower (c : Char) : Char :=
  if 65 ≤ c.toNat ∧ c.toNat ≤ 90 then Char.ofNat (c.toNat + 32) else c

/-- Whether `needle` is a leading segment of `hay`. -/
def startsWith : JSString → JSString → Bool
  | [], _ => true
  | _ :: _, [] => false
  | a :: as, b :: bs => a == b && startsWith as bs

/-- Whether `needle` occurs somewhere in `hay`. -/
def includes (needle : JSString) : JSString → Bool
  | [] => startsWith needle []
  | c :: cs => startsWith needle (c :: cs) || includes needle cs

/-- The constant `isMobileDevice` of `checkMobile`, `/Mobi|Android/i.test(userAgent)`:
one of the two words occurs in the user agent, letters compared without regard
to ASCII case. -/
def isMobileDevice (userAgent : JSString) : Bool :=
  includes "mobi".toList (userAgent.map asciiLower)
    || includes "android".toList (userAgent.map asciiLower)

/-! ## The clock and the file name -/

/-- The getters of a `Date` that `handleSubmit` reads, in local time:
`getDate()` is the day of the month, `getMonth()` counts from zero. The date is
`new Date()`, the current time, so every getter is a non-negative integer. -/
structure JSDate where
  getDate : Nat
  getMonth : Nat
  getFullYear : Nat
  getHours : Nat
  getMinutes : Nat
  deriving DecidableEq, Repr

/-- The template literal bound to `formattedDate` in `handleSubmit`. -/
def formattedDate (now : JSDate) : JSString :=
  padStart (numberToString now.getDate) 2 "0".toList ++ "-".toList
    ++ padStart (numberToString (now.getMonth + 1)) 2 "0".toList ++ "-".toList
    ++ numberToString now.getFullYear ++ " ".toList
    ++ padStart (numberToString now.getHours) 2 "0".toList ++ ":".toList
    ++ padStart (numberToString now.getMinutes) 2 "0".toList

/-- The template literal bound to `fileName` in `handleSubmit`. -/
def fileName (now : JSDate) : JSString :=
  "img-".toList ++ formattedDate now ++ ".png".toList

/-- Two-digit rendering as the specification words it: a number below ten gets
one leading `0`, any other number is left as its decimal digits. -/
def pad2 (n : Nat) : JSString :=
  if n < 10 then '0' :: numberToString n else numberToString n

/-- The file name as the specification words it, from the day, the month
counted from one, the year, the hour and the minute. -/
def specFileName (d m y h mi : Nat) : JSString :=
  "img-".toList ++ pad2 d ++ "-".toList ++ pad2 m ++ "-".toList ++ numberToString y
    ++ " ".toList ++ pad2 h ++ ":".toList ++ pad2 mi ++ ".png".toList

/-! ## Base64 -/

/-- The base64 alphabet of RFC 4648, in index order. -/
def base64Alphabet : List Char :=
  "ABCDEFGHIJKLMNOPQRSTUVWXYZabcdefghijklmnopqrstuvwxyz0123456789+/".toList

/-- The character that stands for a six-bit value. -/
def base64Char (n : Nat) : Char := base64Alphabet.getD n 'A'

/-- The six-bit value a character stands for, if it is in the alphabet. -/
def base64Index (c : Char) : Option Nat :=
  if base64Alphabet.indexOf c < 64 then some (base64Alphabet.indexOf c) else none

/-- The six-bit groups of a byte sequence, three bytes giving four groups; a
last group of one or two bytes is filled with zero bits. -/
def encodeSextets : List Nat → List Nat
  | a :: b :: c :: rest =>
    a / 4 :: (a % 4 * 16 + b / 16) :: (b % 16 * 4 + c / 64) :: c % 64 :: encodeSextets rest
  | [a, b] => [a / 4, a % 4 * 16 + b / 16, b % 16 * 4]
  | [a] => [a / 4, a % 4 * 16]
  | [] => []

/-- The number of `=` signs that complete the last group. -/
def paddingLength (bytes : List Nat) : Nat := (3 - bytes.length % 3) % 3

/-- Base64 encoding with padding (RFC 4648, section 4), as `toDataURL` writes it. -/
def base64Encode (bytes : List Nat) : JSString :=
  (encodeSextets bytes).map base64Char ++ List.replicate (paddingLength bytes) '='

/-- ASCII whitespace: tab, line feed, form feed, carriage return, space. -/
def isAsciiWhitespace (c : Char) : Bool :=
  c.toNat = 9 || c.toNat = 10 || c.toNat = 12 || c.toNat = 13 || c.toNat = 32

/-- Step 2 of forgiving-base64 decode: when the length is a multiple of four,
one or two `=` at the end are removed. -/
def removePadding (data : JSString) : JSString :=
  if data.length % 4 = 0 then
    match data.reverse with
    | '=' :: '=' :: rest => rest.reverse
    | '=' :: rest => rest.reverse
    | _ => data
  else data

/-- Step 5 onward of forgiving-base64 decode: every four six-bit values fill a
24-bit buffer that is read as three bytes; a rest of 12 bits loses its last
four bits and gives one byte, a rest of 18 bits loses its last two and gives
two bytes. -/
def decodeSextets : List Nat → List Nat
  | a :: b :: c :: d :: rest =>
    (((a * 64 + b) * 64 + c) * 64 + d) / 65536
      :: (((a * 64 + b) * 64 + c) * 64 + d) / 256 % 256
      :: (((a * 64 + b) * 64 + c) * 64 + d) % 256
      :: decodeSextets rest
  | [a, b, c] => [((a * 64 + b) * 64 + c) / 4 / 256, ((a * 64 + b) * 64 + c) / 4 % 256]
  | [a, b] => [(a * 64 + b) / 16]
  | _ => []

/-- The built-in `atob`, after the forgiving-base64 decode of the WHATWG Infra
standard: `none` is the `InvalidCharacterError` it throws; the result is a
binary string, one character (code below 256) for each byte. -/
def atob (data : JSString) : Option JSString :=
  let stripped := data.filter (fun c => !isAsciiWhitespace c)
  let unpadded := removePadding stripped
  if unpadded.length % 4 = 1 then none
  else if unpadded.any (fun c => (base64Index c).isNone) then none
  else some ((decodeSextets (unpadded.map (fun c => (base64Index c).getD 0))).map Char.ofNat)

/-- The string an argument of `atob` is converted to: `undefined` (a missing
array element) reads `undefined`. -/
def argToString : Option JSString → JSString
  | some s => s
  | none => "undefined".toList

/-! ## Blob, File and FormData -/

/-- The `type` a `Blob` or `File` constructor keeps (File API): the empty string
when a character lies outside U+0020 to U+007E, else the ASCII lower-casing. -/
def normalizeType (t : JSString) : JSString :=
  if t.any (fun c => c.toNat < 32 || 126 < c.toNat) then [] else t.map asciiLower

/-- A `Blob`: its bytes and its media type. -/
structure Blob where
  bytes : List Nat
  type : JSString
  deriving DecidableEq, Repr

/-- A `File`: a blob with a name. -/
structure File where
  bytes : List Nat
  name : JSString
  type : JSString
  deriving DecidableEq, Repr

/-- The constructor call `new Blob([arrayBuffer], { type })`. -/
def newBlob (arrayBuffer : List Nat) (type : JSString) : Blob :=
  { bytes := arrayBuffer, type := normalizeType type }

/-- The constructor call `new File([blob], fileName, { type })`. -/
def newFile (blob : Blob) (name : JSString) (type : JSString) : File :=
  { bytes := blob.bytes, name := name, type := normalizeType type }

/-- A JavaScript number, kept by the text `Number::toString` gives for it: the
component only ever passes a coordinate on to `FormData.append`. -/
structure JSNumber where
  text : JSString
  deriving DecidableEq, Repr

/-- The values the component passes to `FormData.append`. -/
inductive JSValue where
  | null
  | number (n : JSNumber)
  | string (s : JSString)
  | file (f : File)
  deriving DecidableEq, Repr

/-- The value of one entry of a `FormData`: a text or a file. -/
inductive FormValue where
  | text (s : JSString)
  | file (f : File)
  deriving DecidableEq, Repr

/-- A `FormData` object: its entries, in the order they were appended. -/
abbrev FormData := List (JSString × FormValue)

/-- The entry value `FormData.append(name, value)` stores: a `File` is kept, any
other value is converted to a string as Web IDL converts to `USVString`, so
`null` becomes the text `null`. -/
def entryValue : JSValue → FormValue
  | .null => .text "null".toList
  | .number n => .text n.text
  | .string s => .text s
  | .file f => .file f

/-- The method `FormData.prototype.append`. -/
def FormData.append (fd : FormData) (name : JSString) (value : JSValue) : FormData :=
  fd ++ [(name, entryValue value)]

/-- A state cell holding a number or `null`, as a JavaScript value. -/
def coordinateValue : Option JSNumber → JSValue
  | none => .null
  | some n => .number n

/-! ## The decoding step of `handleSubmit` -/

/-- The exceptions the decoding step can raise. -/
inductive JSError where
  | invalidCharacter
  | typeError
  deriving DecidableEq, Repr

/-- The data URL `canvas.toDataURL('image/png')` returns for a canvas whose PNG
encoding is `png` (HTML standard: the `data:` scheme, the media type, the
`;base64,` marker and the base64 text of the file). -/
def toDataURL (png : List Nat) : JSString :=
  "data:image/png;base64,".toList ++ base64Encode png

/-- Lines 97 to 104 of `App.js`: `byteString` is `atob` of the second
comma-separated piece of the photo, `mimeString` the text between the first
`:` and the next `;` of the first piece, and `intArray` receives the character
code of every character of `byteString`, stored as a byte. The result is
`intArray` and `mimeString`, or the exception raised on the way. -/
def decodeSnapshot (photo : JSString) : Except JSError (List Nat × JSString) :=
  match atob (argToString ((split ',' photo).get? 1)) with
  | none => .error .invalidCharacter
  | some byteString =>
    match (split ',' photo).get? 0 with
    | none => .error .typeError
    | some header =>
      match (split ':' header).get? 1 with
      | none => .error .typeError
      | some afterColon =>
        match (split ';' afterColon).get? 0 with
        | none => .error .typeError
        | some mimeString => .ok (byteString.map (fun c => c.toNat % 256), mimeString)

/-! ## Component state -/

/-- A live media stream handle. -/
structure MediaStream where
  id : Nat
  deriving DecidableEq, Repr

/-- The `<video>` element behind `videoRef`, with the stream bound to it. -/
structure Video where
  srcObject : Option MediaStream
  deriving DecidableEq, Repr

/-- The stored `beforeinstallprompt` event. -/
structure PromptEvent where
  id : Nat
  deriving DecidableEq, Repr

/-- The `useState` cells of `CameraCapture`, and `videoRef.current`. -/
structure State where
  location : JSString
  description : JSString
  photo : Option JSString
  latitude : Option JSNumber
  longitude : Option JSNumber
  facingMode : JSString
  isMobile : Bool
  deferredPrompt : Option PromptEvent
  showInstallPrompt : Bool
  video : Option Video
  deriving DecidableEq, Repr

/-- Truthiness of the `photo` cell: `null` and the empty string are falsy. -/
def photoPresent : Option JSString → Bool
  | none => false
  | some [] => false
  | some (_ :: _) => true

/-- What the render commits for `videoRef`: the JSX mounts the `<video>` element
exactly when `photo` is falsy, a newly mounted element has no stream, and the
ref is `null` while the captured image is shown instead. -/
def commit (s : State) : State :=
  if photoPresent s.photo then { s with video := none }
  else { s with video := some (s.video.getD { srcObject := none }) }

/-- The state after the first render: the `useState` initial values, the video
element mounted. -/
def initialState : State :=
  { location := [], description := [], photo := none, latitude := none, longitude := none,
    facingMode := "environment".toList, isMobile := false, deferredPrompt := none,
    showInstallPrompt := false, video := some { srcObject := none } }

/-! ## Effects -/

/-- The `video` member of the constraints passed to `getUserMedia`. -/
inductive VideoConstraints where
  | unconstrained
  | facing (facingMode : JSString)
  deriving DecidableEq, Repr

/-- The error object `axios.post` rejects with. -/
structure AxiosError where
  responseData : Option JSString
  message : JSString
  deriving DecidableEq, Repr

/-- How the upload request settles: axios resolves on a 2xx status and rejects
on any other status or on a transport error. -/
inductive PostOutcome where
  | fulfilled
  | rejected (error : AxiosError)
  deriving DecidableEq, Repr

/-- What a handler does to the outside world, in order. -/
inductive Effect where
  | preventDefault
  | alert (message : JSString)
  | post (url : JSString) (body : FormData)
  | consoleError (label : JSString) (detail : JSString)
  | consoleLog (message : JSString)
  | getUserMedia (video : VideoConstraints)
  | getCurrentPosition
  | prompt (event : PromptEvent)
  deriving DecidableEq, Repr

/-- The outcome of running a handler: the next state, the effects performed,
and the exception that ended the run, if any. -/
structure Run where
  state : State
  effects : List Effect
  thrown : Option JSError
  deriving DecidableEq, Repr

/-- The upload requests of a run, each with its address and body. -/
def Run.posts (r : Run) : List (JSString × FormData) :=
  r.effects.filterMap (fun e => match e with
    | .post url body => some (url, body)
    | _ => none)

/-- The notices a run shows to the user. -/
def Run.alerts (r : Run) : List JSString :=
  r.effects.filterMap (fun e => match e with
    | .alert message => some message
    | _ => none)

/-- The media requests of a run, each with its video constraints. -/
def Run.mediaRequests (r : Run) : List VideoConstraints :=
  r.effects.filterMap (fun e => match e with
    | .getUserMedia video => some video
    | _ => none)

/-! ## Camera -/

/-- The `constraints.video` that `startCamera` computes from the `isMobile` and
`facingMode` of the render it was created in. -/
def videoConstraints (s : State) : VideoConstraints :=
  if s.isMobile then .facing s.facingMode else .unconstrained

/-- The part of `startCamera` up to its `await`: one media request. -/
def startCamera (s : State) : List Effect :=
  [.getUserMedia (videoConstraints s)]

/-- The part of `startCamera` after its `await`: a stream is bound to the
video element if one is mounted; a rejection is logged. -/
def startCameraSettle (result : Except JSString MediaStream) (s : State) : Run :=
  match result with
  | .ok stream =>
    match s.video with
    | some _ => { state := { s with video := some { srcObject := some stream } },
                  effects := [], thrown := none }
    | none => { state := s, effects := [], thrown := none }
  | .error err =>
    { state := s, effects := [.consoleError "Error accessing the camera: ".toList err],
      thrown := none }

/-- The states of the Capture Controller the specification names. -/
inductive CaptureState where
  | noStream
  | streaming
  | frozen
  deriving DecidableEq, Repr

/-- The Capture Controller state a component state shows: frozen while a photo
is displayed, streaming when the mounted video element has a stream. -/
def captureState (s : State) : CaptureState :=
  if photoPresent s.photo then .frozen
  else
    match s.video with
    | some { srcObject := some _ } => .streaming
    | _ => .noStream

/-- The handler `capturePhoto`, for a canvas whose PNG encoding is `png`. -/
def capturePhoto (png : List Nat) (s : State) : State :=
  commit { s with photo := some (toDataURL png) }

/-- The updater passed to `setFacingMode` in `handleSwitchCamera`. -/
def toggleFacingMode (prevMode : JSString) : JSString :=
  if prevMode = "environment".toList then "user".toList else "environment".toList

/-- The handler `handleSwitchCamera`. -/
def handleSwitchCamera (s : State) : State :=
  { s with facingMode := toggleFacingMode s.facingMode }

/-- The `navigator` properties the effect reads. -/
structure Navigator where
  userAgent : JSString
  geolocation : Bool
  deriving DecidableEq, Repr

/-- The body of the `useEffect` hook, run after mount and after each change of
`facingMode`: `checkMobile` schedules the new `isMobile`, and `startCamera`, a
closure of the render that is being committed, still reads the `isMobile` and
`facingMode` of that render. -/
def useEffectBody (navigator : Navigator) (s : State) : Run :=
  { state := { s with isMobile := isMobileDevice navigator.userAgent },
    effects := startCamera s ++ (if navigator.geolocation then [.getCurrentPosition] else []),
    thrown := none }

/-- The success callback of `getCurrentPosition`. -/
def onPosition (latitude longitude : JSNumber) (s : State) : State :=
  { s with latitude := some latitude, longitude := some longitude }

/-- The `onChange` handler of the location input. -/
def onLocationChange (value : JSString) (s : State) : State :=
  { s with location := value }

/-- The `onChange` handler of the description input. -/
def onDescriptionChange (value : JSString) (s : State) : State :=
  { s with description := value }

/-! ## Submission -/

/-- The fixed address of the upload. -/
def uploadUrl : JSString := "https://axayp.pythonanywhere.com/upload_image".toList

/-- Lines 106 to 117 of `App.js`: the blob, the file and the five `append`
calls. -/
def buildFormData (s : State) (now : JSDate) (intArray : List Nat) (mimeString : JSString) :
    FormData :=
  let blob := newBlob intArray mimeString
  let file := newFile blob (fileName now) mimeString
  let formData : FormData := []
  let formData := formData.append "photo".toList (.file file)
  let formData := formData.append "location".toList (.string s.location)
  let formData := formData.append "comment".toList (.string s.description)
  let formData := formData.append "latitude".toList (coordinateValue s.latitude)
  formData.append "longitude".toList (coordinateValue s.longitude)

/-- What the `catch` block logs: `error.response?.data || error.message`. -/
def errorDetail (error : AxiosError) : JSString :=
  match error.responseData with
  | some (c :: cs) => c :: cs
  | _ => error.message

/-- The handler `handleSubmit`, for a clock reading `now` and an upload that
settles as `response`. On success the state returned is the one the re-render
triggered by the three setters commits; `startCamera` has then run up to its
`await`, and `startCameraSettle` is what follows when the media request
settles. -/
def handleSubmit (s : State) (now : JSDate) (response : PostOutcome) : Run :=
  match s.photo with
  | none =>
    { state := s, effects := [.preventDefault, .alert "Please capture a photo.".toList],
      thrown := none }
  | some [] =>
    { state := s, effects := [.preventDefault, .alert "Please capture a photo.".toList],
      thrown := none }
  | some (c :: cs) =>
    match decodeSnapshot (c :: cs) with
    | .error e => { state := s, effects := [.preventDefault], thrown := some e }
    | .ok (intArray, mimeString) =>
      let formData := buildFormData s now intArray mimeString
      match response with
      | .fulfilled =>
        { state := commit { s with photo := none, location := [], description := [] },
          effects := [.preventDefault, .post uploadUrl formData,
                      .alert "Photo uploaded successfully!".toList] ++ startCamera s,
          thrown := none }
      | .rejected error =>
        { state := s,
          effects := [.preventDefault, .post uploadUrl formData,
                      .consoleError "Error uploading photo:".toList (errorDetail error),
                      .alert "Failed to upload photo.".toList],
          thrown := none }

/-! ## Install prompt -/

/-- The listener `handleBeforeInstallPrompt`. -/
def handleBeforeInstallPrompt (e : PromptEvent) (s : State) : Run :=
  { state := { s with deferredPrompt := some e, showInstallPrompt := true },
    effects := [.preventDefault], thrown := none }

/-- The listener of the `appinstalled` event. -/
def handleAppInstalled (s : State) : State :=
  { s with showInstallPrompt := false }

/-- The handler `handleInstallClick`, for a user choice that resolves with
`outcome`: nothing happens without a stored prompt; with one, the prompt is
shown and the callback of `userChoice` logs the choice and clears both cells. -/
def handleInstallClick (outcome : JSString) (s : State) : Run :=
  match s.deferredPrompt with
  | none => { state := s, effects := [], thrown := none }
  | some e =>
    { state := { s with deferredPrompt := none, showInstallPrompt := false },
      effects := [.prompt e,
        .consoleLog (if outcome = "accepted".toList then "User accepted the A2HS prompt".toList
                     else "User dismissed the A2HS prompt".toList)],
      thrown := none }

/-! ## Reachable states -/

/-- The states the component can be in: the state after the first render, and
every state a handler, listener or callback leads to from such a state, for
any answer of the environment. A captured PNG file is a sequence of bytes. -/
inductive Reachable : State → Prop where
  | init : Reachable initialState
  | effect (navigator : Navigator) {s : State} :
      Reachable s → Reachable (useEffectBody navigator s).state
  | cameraSettled (result : Except JSString MediaStream) {s : State} :
      Reachable s → Reachable (startCameraSettle result s).state
  | position (latitude longitude : JSNumber) {s : State} :
      Reachable s → Reachable (onPosition latitude longitude s)
  | locationChange (value : JSString) {s : State} :
      Reachable s → Reachable (onLocationChange value s)
  | descriptionChange (value : JSString) {s : State} :
      Reachable s → Reachable (onDescriptionChange value s)
  | capture (png : List Nat) {s : State} :
      (∀ b ∈ png, b < 256) → Reachable s → Reachable (capturePhoto png s)
  | switchCamera {s : State} :
      Reachable s → Reachable (handleSwitchCamera s)
  | submit (now : JSDate) (response : PostOutcome) {s : State} :
      Reachable s → Reachable (handleSubmit s now response).state
  | beforeInstallPrompt (e : PromptEvent) {s : State} :
      Reachable s → Reachable (handleBeforeInstallPrompt e s).state
  | appInstalled {s : State} :
      Reachable s → Reachable (handleAppInstalled s)
  | installClick (outcome : JSString) {s : State} :
      Reachable s → Reachable (handleInstallClick outcome s).state

/-- The method `FormData.prototype.getAll`: the values stored under a name. -/
def FormData.getAll (fd : FormData) (name : JSString) : List FormValue :=
  (fd.filter (fun entry => entry.1 == name)).map (fun entry => entry.2)

/-! ## Sample inputs -/

/-- The first bytes of a PNG file, standing for a small capture. -/
def samplePng : List Nat := [137, 80, 78, 71]

/-- The state right after mounting and capturing `samplePng`: no coordinates
have arrived, both text fields are empty. -/
def sampleCaptured : State := capturePhoto samplePng initialState

/-- The state of a user who captured `samplePng` and filled in both fields. -/
def sampleFilled : State :=
  onDescriptionChange "pothole".toList (onLocationChange "Main St".toList sampleCaptured)

/-- The third of March 2025, 09:05 local time. -/
def sampleNow : JSDate :=
  { getDate := 3, getMonth := 2, getFullYear := 2025, getHours := 9, getMinutes := 5 }

/-- A phone browser. -/
def mobileNavigator : Navigator :=
  { userAgent := "Mozilla/5.0 (Linux; Android 13; Pixel 7) Chrome/120.0 Mobile Safari/537.36".toList,
    geolocation := true }

/-! ## Decimal digits and padding -/

theorem toDigitsCore_length_le (b : Nat) :
    ∀ (fuel n : Nat) (ds : List Char), ds.length ≤ (Nat.toDigitsCore b fuel n ds).length := by
  intro fuel
  induction fuel with
  | zero => intro n ds; simp [Nat.toDigitsCore]
  | succ fuel ih =>
    intro n ds
    simp only [Nat.toDigitsCore]
    split
    · simp
    · exact Nat.le_trans (by simp) (ih _ _)

theorem numberToString_small (n : Nat) (h : n < 10) :
    numberToString n = [Nat.digitChar n] := by
  interval_cases n <;> rfl

theorem numberToString_large (n : Nat) (h : 10 ≤ n) : 2 ≤ (numberToString n).length := by
  unfold numberToString Nat.toDigits
  simp only [Nat.toDigitsCore]
  have h1 : n / 10 ≠ 0 := by omega
  simp only [h1, if_false]
  obtain ⟨m, rfl⟩ : ∃ m, n = m + 1 := ⟨n - 1, by omega⟩
  simp only [Nat.toDigitsCore]
  split
  · simp
  · exact Nat.le_trans (by simp) (toDigitsCore_length_le 10 _ _ _)

theorem padStart_two_zero (n : Nat) : padStart (numberToString n) 2 "0".toList = pad2 n := by
  unfold pad2
  by_cases h : n < 10
  · rw [if_pos h, numberToString_small n h]
    rfl
  · rw [if_neg h]
    have h2 := numberToString_large n (by omega)
    unfold padStart
    rw [if_pos h2]

/-- Claim C3: the file name `handleSubmit` synthesizes is a function of the
clock reading alone and equals `img-` day `-` month `-` year, a blank, hour `:`
minute, `.png`, with day, month (counted from one), hour and minute padded
with `0` to two digits; the third of March 2025 at 09:05 gives
`img-03-03-2025 09:05.png`. -/
theorem fileName_eq_specFileName :
    (∀ now : JSDate, fileName now =
        specFileName now.getDate (now.getMonth + 1) now.getFullYear now.getHours now.getMinutes)
    ∧ fileName { getDate := 3, getMonth := 2, getFullYear := 2025, getHours := 9,
                 getMinutes := 5 } = "img-03-03-2025 09:05.png".toList := by
  refine ⟨?_, by decide⟩
  intro now
  simp only [fileName, formattedDate, specFileName, padStart_two_zero, List.append_assoc]

/-! ## Base64 round trip -/

theorem encodeSextets_lt : ∀ (bytes : List Nat), (∀ b ∈ bytes, b < 256) →
    ∀ x ∈ encodeSextets bytes, x < 64 := by
  intro bytes
  induction bytes using encodeSextets.induct with
  | case1 a b c rest ih =>
    intro h x hx
    simp only [encodeSextets, List.mem_cons] at hx
    have ha := h a (by simp)
    have hb := h b (by simp)
    have hc := h c (by simp)
    rcases hx with rfl | rfl | rfl | rfl | hx
    · omega
    · omega
    · omega
    · omega
    · exact ih (fun y hy => h y (by simp [hy])) x hx
  | case2 a b =>
    intro h x hx
    simp only [encodeSextets, List.mem_cons, List.mem_singleton] at hx
    have ha := h a (by simp)
    have hb := h b (by simp)
    rcases hx with rfl | rfl | rfl | hx
    · omega
    · omega
    · omega
    · simp at hx
  | case3 a =>
    intro h x hx
    simp only [encodeSextets, List.mem_cons, List.mem_singleton] at hx
    have ha := h a (by simp)
    rcases hx with rfl | rfl | hx
    · omega
    · omega
    · simp at hx
  | case4 => intro _ x hx; simp [encodeSextets] at hx

theorem decodeSextets_encodeSextets : ∀ (bytes : List Nat), (∀ b ∈ bytes, b < 256) →
    decodeSextets (encodeSextets bytes) = bytes := by
  intro bytes
  induction bytes using encodeSextets.induct with
  | case1 a b c rest ih =>
    intro h
    have ha := h a (by simp)
    have hb := h b (by simp)
    have hc := h c (by simp)
    simp only [encodeSextets, decodeSextets]
    rw [ih (fun y hy => h y (by simp [hy]))]
    congr 1
    · omega
    · congr 1
      · omega
      · congr 1
        omega
  | case2 a b =>
    intro h
    have ha := h a (by simp)
    have hb := h b (by simp)
    simp only [encodeSextets, decodeSextets]
    congr 1
    · omega
    · congr 1
      omega
  | case3 a =>
    intro h
    have ha := h a (by simp)
    simp only [encodeSextets, decodeSextets]
    congr 1
    omega
  | case4 => intro _; rfl

theorem encodeSextets_length : ∀ (bytes : List Nat),
    ((encodeSextets bytes).length + paddingLength bytes) % 4 = 0
      ∧ (encodeSextets bytes).length % 4 ≠ 1 ∧ paddingLength bytes ≤ 2 := by
  intro bytes
  induction bytes using encodeSextets.induct with
  | case1 a b c rest ih =>
    simp only [encodeSextets, paddingLength, List.length_cons] at ih ⊢
    omega
  | case2 a b => simp [encodeSextets, paddingLength]
  | case3 a => simp [encodeSextets, paddingLength]
  | case4 => simp [encodeSextets, paddingLength]

theorem base64Char_facts : ∀ n, n < 64 →
    base64Index (base64Char n) = some n ∧ base64Char n ≠ '='
      ∧ isAsciiWhitespace (base64Char n) = false ∧ base64Char n ≠ ',' := by
  decide

theorem removePadding_append (chars : JSString) (p : Nat) (hne : ∀ c ∈ chars, c ≠ '=')
    (hp : p ≤ 2) (hlen : (chars.length + p) % 4 = 0) :
    removePadding (chars ++ List.replicate p '=') = chars := by
  unfold removePadding
  rw [if_pos (by simpa using hlen)]
  have hrev : ∀ c ∈ chars.reverse, c ≠ '=' := fun c hc => hne c (List.mem_reverse.mp hc)
  obtain rfl | rfl | rfl : p = 0 ∨ p = 1 ∨ p = 2 := by omega
  · simp only [List.replicate_zero, List.append_nil]
    split
    · next rest heq => exact absurd rfl (hrev '=' (by rw [heq]; simp))
    · next rest _ heq => exact absurd rfl (hrev '=' (by rw [heq]; simp))
    · rfl
  · simp only [List.replicate_one, List.reverse_append, List.reverse_singleton, List.singleton_append]
    split
    · next rest heq =>
      simp only [List.cons.injEq, true_and] at heq
      exact absurd rfl (hrev '=' (by rw [heq]; simp))
    · next rest _ heq =>
      simp only [List.cons.injEq, true_and] at heq
      rw [← heq, List.reverse_reverse]
    · next h1 h2 => exact absurd rfl (h2 _)
  · simp only [List.reverse_append, List.reverse_replicate]
    split
    · next rest heq =>
      simp only [List.replicate, List.cons_append, List.nil_append, List.cons.injEq, true_and] at heq
      rw [← heq, List.reverse_reverse]
    · next rest h1 heq =>
      simp only [List.replicate, List.cons_append, List.nil_append, List.cons.injEq, true_and] at heq
      exact absurd heq.symm (by simpa using h1 chars.reverse)
    · next h1 h2 =>
      exact absurd rfl (h1 chars.reverse)

theorem atob_base64Encode (bytes : List Nat) (h : ∀ b ∈ bytes, b < 256) :
    atob (base64Encode bytes) = some (bytes.map Char.ofNat) := by
  have hlt := encodeSextets_lt bytes h
  obtain ⟨hlen, hmod, hpad⟩ := encodeSextets_length bytes
  have hstrip : (base64Encode bytes).filter (fun c => !isAsciiWhitespace c)
      = base64Encode bytes := by
    rw [List.filter_eq_self]
    intro c hc
    simp only [base64Encode, List.mem_append, List.mem_map, List.mem_replicate] at hc
    rcases hc with ⟨n, hn, rfl⟩ | ⟨_, rfl⟩
    · simp [(base64Char_facts n (hlt n hn)).2.2.1]
    · decide
  have hunpad : removePadding (base64Encode bytes) = (encodeSextets bytes).map base64Char := by
    unfold base64Encode
    apply removePadding_append _ _ _ hpad (by simpa using hlen)
    intro c hc
    simp only [List.mem_map] at hc
    obtain ⟨n, hn, rfl⟩ := hc
    exact (base64Char_facts n (hlt n hn)).2.1
  have hany : ((encodeSextets bytes).map base64Char).any (fun c => (base64Index c).isNone)
      = false := by
    rw [List.any_eq_false]
    intro c hc
    simp only [List.mem_map] at hc
    obtain ⟨n, hn, rfl⟩ := hc
    simp [(base64Char_facts n (hlt n hn)).1]
  have hmap : ((encodeSextets bytes).map base64Char).map (fun c => (base64Index c).getD 0)
      = encodeSextets bytes := by
    rw [List.map_map]
    conv_rhs => rw [← List.map_id (encodeSextets bytes)]
    apply List.map_congr_left
    intro n hn
    simp [(base64Char_facts n (hlt n hn)).1]
  unfold atob
  simp only [hstrip, hunpad, hany, hmap, List.length_map, hmod, if_false,
    decodeSextets_encodeSextets bytes h, Bool.false_eq_true]

set_option maxRecDepth 100000 in
theorem toNat_ofNat_byte : ∀ b, b < 256 → (Char.ofNat b).toNat % 256 = b := by
  decide

theorem split_of_not_mem (sep : Char) : ∀ (a : JSString), sep ∉ a → split sep a = [a] := by
  intro a
  induction a with
  | nil => intro _; rfl
  | cons c cs ih =>
    intro h
    simp only [List.mem_cons, not_or] at h
    simp only [split, if_neg (Ne.symm h.1), ih h.2]

theorem split_append_sep (sep : Char) (rest : JSString) : ∀ (a : JSString), sep ∉ a →
    split sep (a ++ sep :: rest) = a :: split sep rest := by
  intro a
  induction a with
  | nil => intro _; simp [split]
  | cons c cs ih =>
    intro h
    simp only [List.mem_cons, not_or] at h
    have unfolded : split sep (c :: (cs ++ sep :: rest))
        = if c = sep then [] :: split sep (cs ++ sep :: rest)
          else
            match split sep (cs ++ sep :: rest) with
            | [] => [[c]]
            | piece :: more => (c :: piece) :: more := rfl
    rw [List.cons_append, unfolded, if_neg (Ne.symm h.1), ih h.2]

theorem comma_not_mem_base64Encode (bytes : List Nat) (h : ∀ b ∈ bytes, b < 256) :
    ',' ∉ base64Encode bytes := by
  intro hc
  simp only [base64Encode, List.mem_append, List.mem_map, List.mem_replicate] at hc
  rcases hc with ⟨n, hn, heq⟩ | ⟨_, heq⟩
  · exact (base64Char_facts n (encodeSextets_lt bytes h n hn)).2.2.2 heq
  · exact absurd heq (by decide)

theorem decodeSnapshot_dataURL (mime : JSString) (bytes : List Nat)
    (hmime : ∀ c ∈ mime, c ≠ ':' ∧ c ≠ ';' ∧ c ≠ ',') (hbytes : ∀ b ∈ bytes, b < 256) :
    decodeSnapshot ("data:".toList ++ mime ++ ";base64,".toList ++ base64Encode bytes)
      = .ok (bytes, mime) := by
  have hhead : ',' ∉ "data:".toList ++ mime ++ ";base64".toList := by
    intro hc
    simp only [List.mem_append] at hc
    rcases hc with (hc | hc) | hc
    · exact absurd hc (by decide)
    · exact (hmime _ hc).2.2 rfl
    · exact absurd hc (by decide)
  have hsplit : split ',' ("data:".toList ++ mime ++ ";base64,".toList ++ base64Encode bytes)
      = ["data:".toList ++ mime ++ ";base64".toList, base64Encode bytes] := by
    have : "data:".toList ++ mime ++ ";base64,".toList ++ base64Encode bytes
        = ("data:".toList ++ mime ++ ";base64".toList) ++ ',' :: base64Encode bytes := by
      simp [List.append_assoc]
    rw [this, split_append_sep ',' _ _ hhead,
      split_of_not_mem ',' _ (comma_not_mem_base64Encode bytes hbytes)]
  have hcolon : split ':' ("data:".toList ++ mime ++ ";base64".toList)
      = ["data".toList, mime ++ ";base64".toList] := by
    have : "data:".toList ++ mime ++ ";base64".toList
        = "data".toList ++ ':' :: (mime ++ ";base64".toList) := by
      simp [List.append_assoc]
    rw [this, split_append_sep ':' _ _ (by decide), split_of_not_mem]
    intro hc
    simp only [List.mem_append] at hc
    rcases hc with hc | hc
    · exact (hmime _ hc).1 rfl
    · exact absurd hc (by decide)
  have hsemi : split ';' (mime ++ ";base64".toList) = [mime, "base64".toList] := by
    have : mime ++ ";base64".toList = mime ++ ';' :: "base64".toList := by simp
    rw [this, split_append_sep ';' _ _ (fun hc => (hmime _ hc).2.1 rfl),
      split_of_not_mem ';' _ (by decide)]
  have hmap : (bytes.map Char.ofNat).map (fun c => c.toNat % 256) = bytes := by
    rw [List.map_map]
    conv_rhs => rw [← List.map_id bytes]
    apply List.map_congr_left
    intro b hb
    simpa using toNat_ofNat_byte b (hbytes b hb)
  unfold decodeSnapshot
  rw [hsplit]
  simp only [List.get?_cons_succ, List.get?_cons_zero, argToString,
    atob_base64Encode bytes hbytes]
  rw [hcolon]
  simp only [List.get?_cons_succ, List.get?_cons_zero]
  rw [hsemi]
  simp only [List.get?_cons_zero, hmap]

/-! ## Submitting a captured photo -/


theorem decodeSnapshot_toDataURL (png : List Nat) (hpng : ∀ b ∈ png, b < 256) :
    decodeSnapshot (toDataURL png) = .ok (png, "image/png".toList) := by
  have h := decodeSnapshot_dataURL "image/png".toList png (by decide) hpng
  have e : toDataURL png
      = "data:".toList ++ "image/png".toList ++ ";base64,".toList ++ base64Encode png := rfl
  rw [e]
  exact h

theorem handleSubmit_captured (s : State) (now : JSDate) (response : PostOutcome)
    (png : List Nat) (hpng : ∀ b ∈ png, b < 256) (hphoto : s.photo = some (toDataURL png)) :
    handleSubmit s now response =
      match response with
      | .fulfilled =>
        { state := commit { s with photo := none, location := [], description := [] },
          effects := [.preventDefault,
                      .post uploadUrl (buildFormData s now png "image/png".toList),
                      .alert "Photo uploaded successfully!".toList] ++ startCamera s,
          thrown := none }
      | .rejected error =>
        { state := s,
          effects := [.preventDefault,
                      .post uploadUrl (buildFormData s now png "image/png".toList),
                      .consoleError "Error uploading photo:".toList (errorDetail error),
                      .alert "Failed to upload photo.".toList],
          thrown := none } := by
  have hd := decodeSnapshot_toDataURL png hpng
  have e : toDataURL png = 'd' :: ("ata:image/png;base64,".toList ++ base64Encode png) := rfl
  rw [e] at hd hphoto
  unfold handleSubmit
  rw [hphoto]
  simp only [hd]

theorem commit_photo (s : State) : (commit s).photo = s.photo := by
  unfold commit
  split <;> rfl

theorem handleSubmit_photo (s : State) (now : JSDate) (response : PostOutcome) :
    (handleSubmit s now response).state.photo = s.photo
      ∨ (handleSubmit s now response).state.photo = none := by
  unfold handleSubmit
  split
  · exact Or.inl rfl
  · exact Or.inl rfl
  · split
    · exact Or.inl rfl
    · split
      · exact Or.inr (by rw [commit_photo])
      · exact Or.inl rfl

theorem reachable_photo {s : State} (h : Reachable s) :
    s.photo = none ∨ ∃ png, (∀ b ∈ png, b < 256) ∧ s.photo = some (toDataURL png) := by
  induction h with
  | init => exact Or.inl rfl
  | effect navigator _ ih => exact ih
  | @cameraSettled result s _ ih =>
    have : (startCameraSettle result s).state.photo = s.photo := by
      unfold startCameraSettle
      split
      · split <;> rfl
      · rfl
    rw [this]; exact ih
  | position _ _ _ ih => exact ih
  | locationChange _ _ ih => exact ih
  | descriptionChange _ _ ih => exact ih
  | capture png hpng _ _ =>
    exact Or.inr ⟨png, hpng, by rw [capturePhoto, commit_photo]⟩
  | switchCamera _ ih => exact ih
  | @submit now response s _ ih =>
    rcases handleSubmit_photo s now response with h | h
    · rw [h]; exact ih
    · exact Or.inl h
  | beforeInstallPrompt _ _ ih => exact ih
  | appInstalled _ ih => exact ih
  | @installClick outcome s _ ih =>
    have : (handleInstallClick outcome s).state.photo = s.photo := by
      unfold handleInstallClick
      split <;> rfl
    rw [this]; exact ih

theorem reachable_present {s : State} (h : Reachable s) (hp : photoPresent s.photo = true) :
    ∃ png, (∀ b ∈ png, b < 256) ∧ s.photo = some (toDataURL png) := by
  rcases reachable_photo h with hnone | hsome
  · rw [hnone] at hp; exact absurd hp (by decide)
  · exact hsome



theorem reachable_sampleCaptured : Reachable sampleCaptured :=
  Reachable.capture samplePng (by decide) Reachable.init

theorem reachable_sampleFilled : Reachable sampleFilled :=
  Reachable.descriptionChange _ (Reachable.locationChange _ reachable_sampleCaptured)

theorem handleSubmit_video (s : State) (now : JSDate) (response : PostOutcome) :
    (handleSubmit s now response).state = s
      ∨ photoPresent (handleSubmit s now response).state.photo = false := by
  unfold handleSubmit
  split
  · exact Or.inl rfl
  · exact Or.inl rfl
  · split
    · exact Or.inl rfl
    · split
      · exact Or.inr (by rw [commit_photo]; rfl)
      · exact Or.inl rfl

theorem reachable_video {s : State} (h : Reachable s) :
    photoPresent s.photo = true → s.video = none := by
  induction h with
  | init => intro hp; exact absurd hp (by decide)
  | effect navigator _ ih => exact ih
  | @cameraSettled result s _ ih =>
    intro hp
    cases result with
    | error err => exact ih hp
    | ok stream =>
      cases hv : s.video with
      | none =>
        have e : (startCameraSettle (.ok stream) s).state = s := by
          simp [startCameraSettle, hv]
        rw [e] at hp ⊢
        rw [← hv]
      | some v =>
        have e : (startCameraSettle (.ok stream) s).state.photo = s.photo := by
          simp [startCameraSettle, hv]
        rw [e] at hp
        rw [ih hp] at hv
        cases hv
  | position _ _ _ ih => exact ih
  | locationChange _ _ ih => exact ih
  | descriptionChange _ _ ih => exact ih
  | capture png hpng _ _ =>
    intro _
    have e : toDataURL png = 'd' :: ("ata:image/png;base64,".toList ++ base64Encode png) := rfl
    simp [capturePhoto, commit, e, photoPresent]
  | switchCamera _ ih => exact ih
  | @submit now response s _ ih =>
    intro hp
    rcases handleSubmit_video s now response with h | h
    · rw [h] at hp ⊢; exact ih hp
    · rw [h] at hp; exact absurd hp (by decide)
  | beforeInstallPrompt _ _ ih => exact ih
  | appInstalled _ ih => exact ih
  | @installClick outcome s _ ih =>
    intro hp
    cases he : s.deferredPrompt with
    | none =>
      have e : (handleInstallClick outcome s).state = s := by
        simp [handleInstallClick, he]
      rw [e] at hp ⊢
      exact ih hp
    | some ev =>
      have e1 : (handleInstallClick outcome s).state.photo = s.photo := by
        simp [handleInstallClick, he]
      have e2 : (handleInstallClick outcome s).state.video = s.video := by
        simp [handleInstallClick, he]
      rw [e1] at hp
      rw [e2]
      exact ih hp

theorem split_comma_dataURL (mime b64 : JSString) (hmime : ∀ c ∈ mime, c ≠ ',')
    (hb64 : ',' ∉ b64) :
    split ',' ("data:".toList ++ mime ++ ";base64,".toList ++ b64)
      = ["data:".toList ++ mime ++ ";base64".toList, b64] := by
  have hhead : ',' ∉ "data:".toList ++ mime ++ ";base64".toList := by
    intro hc
    simp only [List.mem_append] at hc
    rcases hc with (hc | hc) | hc
    · exact absurd hc (by decide)
    · exact hmime _ hc rfl
    · exact absurd hc (by decide)
  have e : "data:".toList ++ mime ++ ";base64,".toList ++ b64
      = ("data:".toList ++ mime ++ ";base64".toList) ++ ',' :: b64 := by
    simp [List.append_assoc]
  rw [e, split_append_sep ',' _ _ hhead, split_of_not_mem ',' _ hb64]

theorem mime_of_toDataURL (mime : JSString) (bytes png : List Nat)
    (hmime : ∀ c ∈ mime, c ≠ ':' ∧ c ≠ ';' ∧ c ≠ ',') (hbytes : ∀ b ∈ bytes, b < 256)
    (hpng : ∀ b ∈ png, b < 256)
    (h : toDataURL png
      = "data:".toList ++ mime ++ ";base64,".toList ++ base64Encode bytes) :
    mime = "image/png".toList := by
  have e : toDataURL png
      = "data:".toList ++ "image/png".toList ++ ";base64,".toList ++ base64Encode png := rfl
  have h1 := split_comma_dataURL "image/png".toList (base64Encode png) (by decide)
    (comma_not_mem_base64Encode png hpng)
  have h2 := split_comma_dataURL mime (base64Encode bytes) (fun c hc => (hmime c hc).2.2)
    (comma_not_mem_base64Encode bytes hbytes)
  rw [← e, h, h2] at h1
  have h3 : "data:".toList ++ mime ++ ";base64".toList
      = "data:".toList ++ "image/png".toList ++ ";base64".toList := by
    injection h1
  rw [List.append_assoc, List.append_assoc] at h3
  exact List.append_cancel_right (List.append_cancel_left h3)

theorem toNat_ofNat_upper : ∀ n, n < 91 → (Char.ofNat (n + 32)).toNat = n + 32 := by
  decide

theorem map_eq_self {α : Type} (f : α → α) : ∀ (l : List α), l.map f = l → ∀ x ∈ l, f x = x := by
  intro l
  induction l with
  | nil => intro _ x hx; simp at hx
  | cons a as ih =>
    intro h x hx
    simp only [List.map_cons, List.cons.injEq] at h
    rcases List.mem_cons.mp hx with rfl | hx
    · exact h.1
    · exact ih h.2 x hx

theorem normalizeType_eq_self_iff (mime : JSString) :
    normalizeType mime = mime
      ↔ ∀ c ∈ mime, 32 ≤ c.toNat ∧ c.toNat ≤ 126 ∧ ¬ (65 ≤ c.toNat ∧ c.toNat ≤ 90) := by
  unfold normalizeType
  cases hany : mime.any (fun c => decide (c.toNat < 32) || decide (126 < c.toNat))
  · rw [List.any_eq_false] at hany
    simp only [Bool.false_eq_true, if_false]
    constructor
    · intro hmap c hc
      have hprint := hany c hc
      simp only [Bool.or_eq_true, decide_eq_true_eq, not_or] at hprint
      refine ⟨by omega, by omega, fun hupper => ?_⟩
      have hfix := map_eq_self asciiLower mime hmap c hc
      unfold asciiLower at hfix
      rw [if_pos hupper] at hfix
      have hnat := toNat_ofNat_upper c.toNat (by omega)
      rw [hfix] at hnat
      omega
    · intro hlower
      conv_rhs => rw [← List.map_id mime]
      apply List.map_congr_left
      intro c hc
      unfold asciiLower
      rw [if_neg (hlower c hc).2.2]
      rfl
  · simp only [if_true]
    rw [List.any_eq_true] at hany
    obtain ⟨c, hc, hbad⟩ := hany
    simp only [Bool.or_eq_true, decide_eq_true_eq] at hbad
    constructor
    · intro hnil
      rw [← hnil] at hc
      simp at hc
    · intro hlower
      have := hlower c hc
      omega

/-! ## The claims -/

/-- Claim C1: when the photo is absent (`null` or the empty string), `handleSubmit`
issues no POST, shows the notice `Please capture a photo.` and leaves the state
(photo, location and description included) as it was; in every state of the
component in which the photo is present it issues exactly one POST, to the
upload address; so in every state of the component a request goes out exactly
when the photo is present. -/
theorem handleSubmit_posts_iff_photo (s : State) (now : JSDate) (response : PostOutcome) :
    (photoPresent s.photo = false →
      (handleSubmit s now response).posts = []
        ∧ (handleSubmit s now response).alerts = ["Please capture a photo.".toList]
        ∧ (handleSubmit s now response).state = s)
    ∧ (Reachable s → photoPresent s.photo = true →
      ∃ body, (handleSubmit s now response).posts = [(uploadUrl, body)])
    ∧ (Reachable s →
      ((handleSubmit s now response).posts ≠ [] ↔ photoPresent s.photo = true)) := by
  have habsent : photoPresent s.photo = false →
      (handleSubmit s now response).posts = []
        ∧ (handleSubmit s now response).alerts = ["Please capture a photo.".toList]
        ∧ (handleSubmit s now response).state = s := by
    intro habsent
    unfold handleSubmit
    split
    · exact ⟨rfl, rfl, rfl⟩
    · exact ⟨rfl, rfl, rfl⟩
    · next c cs hphoto =>
      rw [hphoto] at habsent
      exact absurd habsent (by simp [photoPresent])
  have hpresent : Reachable s → photoPresent s.photo = true →
      ∃ body, (handleSubmit s now response).posts = [(uploadUrl, body)] := by
    intro hreach hpresent
    obtain ⟨png, hpng, hphoto⟩ := reachable_present hreach hpresent
    rw [handleSubmit_captured s now response png hpng hphoto]
    cases response
    · exact ⟨_, rfl⟩
    · exact ⟨_, rfl⟩
  refine ⟨habsent, hpresent, fun hreach => ⟨fun hposts => ?_, fun hp => ?_⟩⟩
  · cases hp : photoPresent s.photo
    · exact absurd (habsent hp).1 hposts
    · rfl
  · obtain ⟨body, hbody⟩ := hpresent hreach hp
    rw [hbody]
    exact List.cons_ne_nil _ _

/-- Witness of C1: no request from the initial state, one request once
`samplePng` has been captured. -/
theorem handleSubmit_posts_iff_photo_witness :
    (photoPresent initialState.photo = false
      ∧ (handleSubmit initialState sampleNow .fulfilled).posts = []
      ∧ (handleSubmit initialState sampleNow .fulfilled).alerts
          = ["Please capture a photo.".toList]
      ∧ (handleSubmit initialState sampleNow .fulfilled).state = initialState)
    ∧ (Reachable sampleCaptured ∧ photoPresent sampleCaptured.photo = true
      ∧ ∃ body, (handleSubmit sampleCaptured sampleNow .fulfilled).posts = [(uploadUrl, body)]) :=
  ⟨⟨by decide, (handleSubmit_posts_iff_photo initialState sampleNow .fulfilled).1 (by decide)⟩,
   reachable_sampleCaptured, by decide,
   (handleSubmit_posts_iff_photo sampleCaptured sampleNow .fulfilled).2.1
     reachable_sampleCaptured (by decide)⟩

/-- Counterexample to C2 as stated: with both coordinates still `null`, the
submission of the sample capture goes out, and its `latitude` and `longitude`
fields hold the text `null`, not the empty text. -/
theorem null_coordinates_not_empty :
    Reachable sampleCaptured ∧ sampleCaptured.latitude = none ∧ sampleCaptured.longitude = none
    ∧ ∃ body, (handleSubmit sampleCaptured sampleNow .fulfilled).posts = [(uploadUrl, body)]
        ∧ body.getAll "latitude".toList = [.text "null".toList]
        ∧ body.getAll "longitude".toList = [.text "null".toList]
        ∧ body.getAll "latitude".toList ≠ [.text []]
        ∧ body.getAll "longitude".toList ≠ [.text []] :=
  ⟨reachable_sampleCaptured, rfl, rfl,
   buildFormData sampleCaptured sampleNow samplePng "image/png".toList,
   by decide, by decide, by decide, by decide, by decide⟩

/-- Claim C2, amended: a submission made with a photo present while latitude
and longitude are still `null` does not abort: no exception ends the handler,
exactly one POST goes out, and in its payload the `latitude` and `longitude`
fields are each the four-character text `null`. -/
theorem handleSubmit_null_coordinates (s : State) (now : JSDate) (response : PostOutcome)
    (hreach : Reachable s) (hpresent : photoPresent s.photo = true)
    (hlat : s.latitude = none) (hlon : s.longitude = none) :
    (handleSubmit s now response).thrown = none
    ∧ ∃ body, (handleSubmit s now response).posts = [(uploadUrl, body)]
        ∧ body.getAll "latitude".toList = [.text "null".toList]
        ∧ body.getAll "longitude".toList = [.text "null".toList] := by
  obtain ⟨png, hpng, hphoto⟩ := reachable_present hreach hpresent
  rw [handleSubmit_captured s now response png hpng hphoto]
  have hbody : (buildFormData s now png "image/png".toList).getAll "latitude".toList
        = [.text "null".toList]
      ∧ (buildFormData s now png "image/png".toList).getAll "longitude".toList
        = [.text "null".toList] := by
    simp only [buildFormData, hlat, hlon, coordinateValue]
    exact ⟨rfl, rfl⟩
  cases response
  · exact ⟨rfl, _, rfl, hbody.1, hbody.2⟩
  · exact ⟨rfl, _, rfl, hbody.1, hbody.2⟩

/-- Witness of C2 (amended), on the sample capture. -/
theorem handleSubmit_null_coordinates_witness :
    (handleSubmit sampleCaptured sampleNow .fulfilled).thrown = none
    ∧ ∃ body, (handleSubmit sampleCaptured sampleNow .fulfilled).posts = [(uploadUrl, body)]
        ∧ body.getAll "latitude".toList = [.text "null".toList]
        ∧ body.getAll "longitude".toList = [.text "null".toList] :=
  handleSubmit_null_coordinates sampleCaptured sampleNow .fulfilled reachable_sampleCaptured
    (by decide) rfl rfl

/-- Claim C4: when an upload fails (the POST was issued and rejected), the state
after `handleSubmit` equals the state before it, so photo, location and
description are unchanged; the user is shown `Failed to upload photo.`, and no
media request is made, so the camera is not restarted. -/
theorem handleSubmit_rejected_keeps_state (s : State) (now : JSDate) (error : AxiosError)
    (hposted : (handleSubmit s now (.rejected error)).posts ≠ []) :
    (handleSubmit s now (.rejected error)).state = s
    ∧ (handleSubmit s now (.rejected error)).state.photo = s.photo
    ∧ (handleSubmit s now (.rejected error)).state.location = s.location
    ∧ (handleSubmit s now (.rejected error)).state.description = s.description
    ∧ (handleSubmit s now (.rejected error)).alerts = ["Failed to upload photo.".toList]
    ∧ (handleSubmit s now (.rejected error)).mediaRequests = [] := by
  revert hposted
  unfold handleSubmit
  split
  · intro h; exact absurd rfl h
  · intro h; exact absurd rfl h
  · split
    · intro h; exact absurd rfl h
    · intro _; exact ⟨rfl, rfl, rfl, rfl, rfl, rfl⟩

/-- Witness of C4: the filled-in sample capture, rejected with a status 500. -/
theorem handleSubmit_rejected_keeps_state_witness :
    (handleSubmit sampleFilled sampleNow
        (.rejected { responseData := some "Server Error".toList,
                     message := "Request failed with status code 500".toList })).posts ≠ []
    ∧ (handleSubmit sampleFilled sampleNow
        (.rejected { responseData := some "Server Error".toList,
                     message := "Request failed with status code 500".toList })).state
        = sampleFilled
    ∧ (handleSubmit sampleFilled sampleNow
        (.rejected { responseData := some "Server Error".toList,
                     message := "Request failed with status code 500".toList })).alerts
        = ["Failed to upload photo.".toList] :=
  ⟨by decide,
   (handleSubmit_rejected_keeps_state sampleFilled sampleNow _ (by decide)).1,
   (handleSubmit_rejected_keeps_state sampleFilled sampleNow _ (by decide)).2.2.2.2.1⟩

/-- Counterexample to C5 as stated: after the successful upload of the sample
capture the form is reset, but right after `handleSubmit` no stream is bound
to the video element, and none is bound either once the media request has
been rejected: the Capture Controller is not streaming. -/
theorem upload_success_not_streaming :
    Reachable sampleFilled
    ∧ (handleSubmit sampleFilled sampleNow .fulfilled).posts ≠ []
    ∧ (handleSubmit sampleFilled sampleNow .fulfilled).state.photo = none
    ∧ captureState (handleSubmit sampleFilled sampleNow .fulfilled).state ≠ .streaming
    ∧ captureState (startCameraSettle (.error "NotAllowedError".toList)
        (handleSubmit sampleFilled sampleNow .fulfilled).state).state ≠ .streaming :=
  ⟨reachable_sampleFilled, by decide, by decide, by decide, by decide⟩

/-- Claim C5, amended: after a successful upload the photo is `null`, the
location and description are empty, the success notice has been shown and
`startCamera` has issued exactly one media request, with the current video
constraints; at that moment the video element is mounted with no stream
bound, so the Capture Controller is in the no-stream state. When the request
resolves with a stream in a state with no photo and a mounted video element,
as the state right after `handleSubmit` is, the stream is bound to the video
element and the controller is streaming; when a photo has been captured in
between, the stream is not bound and the controller is frozen; when the
request is rejected, the error is logged with the label
`Error accessing the camera: ` and the state is left as it is. -/
theorem handleSubmit_fulfilled_resets (s : State) (now : JSDate)
    (hreach : Reachable s) (hpresent : photoPresent s.photo = true) :
    (handleSubmit s now .fulfilled).state.photo = none
    ∧ (handleSubmit s now .fulfilled).state.location = []
    ∧ (handleSubmit s now .fulfilled).state.description = []
    ∧ (handleSubmit s now .fulfilled).alerts = ["Photo uploaded successfully!".toList]
    ∧ (handleSubmit s now .fulfilled).mediaRequests = [videoConstraints s]
    ∧ (handleSubmit s now .fulfilled).state.video = some { srcObject := none }
    ∧ captureState (handleSubmit s now .fulfilled).state = .noStream
    ∧ (∀ (t : State) (stream : MediaStream), photoPresent t.photo = false → t.video ≠ none →
        (startCameraSettle (.ok stream) t).state.video = some { srcObject := some stream }
        ∧ captureState (startCameraSettle (.ok stream) t).state = .streaming)
    ∧ (∀ stream,
        (startCameraSettle (.ok stream) (handleSubmit s now .fulfilled).state).state.video
          = some { srcObject := some stream }
        ∧ captureState
            (startCameraSettle (.ok stream) (handleSubmit s now .fulfilled).state).state
          = .streaming)
    ∧ (∀ stream png,
        (startCameraSettle (.ok stream)
            (capturePhoto png (handleSubmit s now .fulfilled).state)).state.video = none
        ∧ captureState (startCameraSettle (.ok stream)
            (capturePhoto png (handleSubmit s now .fulfilled).state)).state = .frozen)
    ∧ (∀ (t : State) (err : JSString),
        startCameraSettle (.error err) t
          = { state := t,
              effects := [.consoleError "Error accessing the camera: ".toList err],
              thrown := none })
    ∧ (∀ err, captureState
        (startCameraSettle (.error err) (handleSubmit s now .fulfilled).state).state
          = .noStream) := by
  obtain ⟨png, hpng, hphoto⟩ := reachable_present hreach hpresent
  have hvideo := reachable_video hreach hpresent
  rw [handleSubmit_captured s now .fulfilled png hpng hphoto]
  have hsettle : ∀ (t : State) (stream : MediaStream), photoPresent t.photo = false →
      t.video ≠ none →
      (startCameraSettle (.ok stream) t).state.video = some { srcObject := some stream }
      ∧ captureState (startCameraSettle (.ok stream) t).state = .streaming := by
    intro t stream hphoto hmounted
    cases hv : t.video with
    | none => exact absurd hv hmounted
    | some v => simp [startCameraSettle, captureState, hv, hphoto]
  refine ⟨rfl, rfl, rfl, rfl, rfl, ?_, ?_, hsettle, ?_, ?_, fun _ _ => rfl, ?_⟩
  · simp [commit, photoPresent, hvideo]
  · simp [commit, photoPresent, captureState, hvideo]
  · intro stream
    simp [commit, photoPresent, startCameraSettle, captureState]
  · intro stream png
    have e : toDataURL png = 'd' :: ("ata:image/png;base64,".toList ++ base64Encode png) := rfl
    simp [capturePhoto, commit, photoPresent, startCameraSettle, captureState, e]
  · intro err
    simp [commit, photoPresent, startCameraSettle, captureState, hvideo]

/-- Witness of C5 (amended), on the filled-in sample capture: the reset, the
stream bound on success, the photo captured in between, the rejection logged. -/
theorem handleSubmit_fulfilled_resets_witness :
    Reachable sampleFilled ∧ photoPresent sampleFilled.photo = true
    ∧ (handleSubmit sampleFilled sampleNow .fulfilled).state.photo = none
    ∧ (handleSubmit sampleFilled sampleNow .fulfilled).state.location = []
    ∧ (handleSubmit sampleFilled sampleNow .fulfilled).state.description = []
    ∧ captureState (startCameraSettle (.ok { id := 7 })
        (handleSubmit sampleFilled sampleNow .fulfilled).state).state = .streaming
    ∧ captureState (startCameraSettle (.ok { id := 7 })
        (capturePhoto samplePng (handleSubmit sampleFilled sampleNow .fulfilled).state)).state
        = .frozen
    ∧ startCameraSettle (.error "NotAllowedError".toList)
        (handleSubmit sampleFilled sampleNow .fulfilled).state
        = { state := (handleSubmit sampleFilled sampleNow .fulfilled).state,
            effects := [.consoleError "Error accessing the camera: ".toList
              "NotAllowedError".toList],
            thrown := none } :=
  ⟨reachable_sampleFilled, by decide,
   (handleSubmit_fulfilled_resets sampleFilled sampleNow reachable_sampleFilled (by decide)).1,
   (handleSubmit_fulfilled_resets sampleFilled sampleNow reachable_sampleFilled (by decide)).2.1,
   (handleSubmit_fulfilled_resets sampleFilled sampleNow reachable_sampleFilled
     (by decide)).2.2.1,
   ((handleSubmit_fulfilled_resets sampleFilled sampleNow reachable_sampleFilled
     (by decide)).2.2.2.2.2.2.2.2.1 _).2,
   ((handleSubmit_fulfilled_resets sampleFilled sampleNow reachable_sampleFilled
     (by decide)).2.2.2.2.2.2.2.2.2.1 _ _).2,
   (handleSubmit_fulfilled_resets sampleFilled sampleNow reachable_sampleFilled
     (by decide)).2.2.2.2.2.2.2.2.2.2.1 _ _⟩

/-- Claim C6: for every submission with a photo present, the payload
`handleSubmit` posts consists of exactly five fields, in this order: `photo`,
the image file named by the synthesized file name; `location`, the location
text as it is; `comment`, the description text as it is; `latitude`;
`longitude`. -/
theorem handleSubmit_payload_fields (s : State) (now : JSDate) (response : PostOutcome)
    (hreach : Reachable s) (hpresent : photoPresent s.photo = true) :
    ∃ png, s.photo = some (toDataURL png)
      ∧ (handleSubmit s now response).posts =
        [(uploadUrl,
          [("photo".toList,
              .file { bytes := png, name := fileName now, type := "image/png".toList }),
           ("location".toList, .text s.location),
           ("comment".toList, .text s.description),
           ("latitude".toList, entryValue (coordinateValue s.latitude)),
           ("longitude".toList, entryValue (coordinateValue s.longitude))])] := by
  obtain ⟨png, hpng, hphoto⟩ := reachable_present hreach hpresent
  refine ⟨png, hphoto, ?_⟩
  rw [handleSubmit_captured s now response png hpng hphoto]
  cases response <;> rfl

/-- Witness of C6: the payload of the filled-in sample capture. -/
theorem handleSubmit_payload_fields_witness :
    Reachable sampleFilled ∧ photoPresent sampleFilled.photo = true
    ∧ ∃ png, sampleFilled.photo = some (toDataURL png)
      ∧ (handleSubmit sampleFilled sampleNow .fulfilled).posts =
        [(uploadUrl,
          [("photo".toList,
              .file { bytes := png, name := fileName sampleNow, type := "image/png".toList }),
           ("location".toList, .text sampleFilled.location),
           ("comment".toList, .text sampleFilled.description),
           ("latitude".toList, entryValue (coordinateValue sampleFilled.latitude)),
           ("longitude".toList, entryValue (coordinateValue sampleFilled.longitude))])] :=
  ⟨reachable_sampleFilled, by decide,
   handleSubmit_payload_fields sampleFilled sampleNow .fulfilled reachable_sampleFilled
     (by decide)⟩

/-- Claim C7: for every photo of the form `data:` mime `;base64,` b64, where mime
has none of `:`, `;`, `,` and b64 is the base64 encoding of the bytes `bytes`,
the decoding step produces a buffer of the same length whose bytes are those
of `bytes`, position by position, and extracts mime as `mimeString`; and
whenever a state of the component holds such a photo, the media type of the
blob and of the file equals mime. On any string of that form, held by the
component or not, the type the constructors keep equals mime exactly when mime
consists of characters U+0020 to U+007E none of which is an upper-case ASCII
letter. -/
theorem decodeSnapshot_preserves (mime : JSString) (bytes : List Nat) (now : JSDate)
    (hmime : ∀ c ∈ mime, c ≠ ':' ∧ c ≠ ';' ∧ c ≠ ',') (hbytes : ∀ b ∈ bytes, b < 256) :
    ∃ buffer mimeString,
      decodeSnapshot ("data:".toList ++ mime ++ ";base64,".toList ++ base64Encode bytes)
        = .ok (buffer, mimeString)
      ∧ buffer.length = bytes.length
      ∧ (∀ i, buffer.get? i = bytes.get? i)
      ∧ mimeString = mime
      ∧ (newBlob buffer mimeString).bytes = bytes
      ∧ (newFile (newBlob buffer mimeString) (fileName now) mimeString).bytes = bytes
      ∧ (∀ s : State, Reachable s →
          s.photo
            = some ("data:".toList ++ mime ++ ";base64,".toList ++ base64Encode bytes) →
          (newBlob buffer mimeString).type = mime
          ∧ (newFile (newBlob buffer mimeString) (fileName now) mimeString).type = mime)
      ∧ ((newBlob buffer mimeString).type = mime
          ↔ ∀ c ∈ mime, 32 ≤ c.toNat ∧ c.toNat ≤ 126 ∧ ¬ (65 ≤ c.toNat ∧ c.toNat ≤ 90))
      ∧ ((newFile (newBlob buffer mimeString) (fileName now) mimeString).type = mime
          ↔ ∀ c ∈ mime, 32 ≤ c.toNat ∧ c.toNat ≤ 126 ∧ ¬ (65 ≤ c.toNat ∧ c.toNat ≤ 90)) := by
  refine ⟨bytes, mime, decodeSnapshot_dataURL mime bytes hmime hbytes, rfl, fun _ => rfl, rfl,
    rfl, rfl, ?_, normalizeType_eq_self_iff mime, normalizeType_eq_self_iff mime⟩
  intro s hreach hphoto
  have hheld : normalizeType mime = mime := by
    rcases reachable_photo hreach with hnone | ⟨png, hpng, hsome⟩
    · rw [hnone] at hphoto
      cases hphoto
    · rw [hsome] at hphoto
      have hmimeEq := mime_of_toDataURL mime bytes png hmime hbytes hpng
        (Option.some.inj hphoto)
      rw [hmimeEq]
      decide
  exact ⟨hheld, hheld⟩

/-- Witness of C7: the photo the component holds after capturing `samplePng`. -/
theorem decodeSnapshot_preserves_witness :
    Reachable sampleCaptured
    ∧ sampleCaptured.photo = some ("data:".toList ++ "image/png".toList ++ ";base64,".toList
        ++ base64Encode samplePng)
    ∧ ∃ buffer mimeString,
      decodeSnapshot ("data:".toList ++ "image/png".toList ++ ";base64,".toList
          ++ base64Encode samplePng) = .ok (buffer, mimeString)
      ∧ buffer.length = samplePng.length
      ∧ (∀ i, buffer.get? i = samplePng.get? i)
      ∧ mimeString = "image/png".toList
      ∧ (newBlob buffer mimeString).bytes = samplePng
      ∧ (newBlob buffer mimeString).type = "image/png".toList
      ∧ (newFile (newBlob buffer mimeString) (fileName sampleNow) mimeString).type
          = "image/png".toList := by
  obtain ⟨buffer, mimeString, hdecode, hlen, hget, hmimeString, hblob, _, hheld, _, _⟩ :=
    decodeSnapshot_preserves "image/png".toList samplePng sampleNow (by decide) (by decide)
  exact ⟨reachable_sampleCaptured, rfl, buffer, mimeString, hdecode, hlen, hget, hmimeString,
    hblob, (hheld sampleCaptured reachable_sampleCaptured rfl).1,
    (hheld sampleCaptured reachable_sampleCaptured rfl).2⟩

/-- Claim C8: for a facing preference that is `environment` or `user`, the
transition of `handleSwitchCamera` applied twice gives the preference back,
and applied once gives the other value. -/
theorem toggleFacingMode_involution (s : State)
    (h : s.facingMode = "environment".toList ∨ s.facingMode = "user".toList) :
    (handleSwitchCamera (handleSwitchCamera s)).facingMode = s.facingMode
    ∧ toggleFacingMode (toggleFacingMode s.facingMode) = s.facingMode
    ∧ (s.facingMode = "environment".toList →
        (handleSwitchCamera s).facingMode = "user".toList)
    ∧ (s.facingMode = "user".toList →
        (handleSwitchCamera s).facingMode = "environment".toList) := by
  have henv : toggleFacingMode "environment".toList = "user".toList := by decide
  have huser : toggleFacingMode "user".toList = "environment".toList := by decide
  simp only [handleSwitchCamera]
  rcases h with h | h <;> rw [h] <;> simp only [henv, huser] <;> simp

/-- Witness of C8: the initial preference, `environment`. -/
theorem toggleFacingMode_involution_witness :
    (handleSwitchCamera (handleSwitchCamera initialState)).facingMode = initialState.facingMode
    ∧ toggleFacingMode (toggleFacingMode initialState.facingMode) = initialState.facingMode
    ∧ (initialState.facingMode = "environment".toList →
        (handleSwitchCamera initialState).facingMode = "user".toList)
    ∧ (initialState.facingMode = "user".toList →
        (handleSwitchCamera initialState).facingMode = "environment".toList) :=
  toggleFacingMode_involution initialState (Or.inl rfl)

/-- Claim C9 fails on mount: on a phone, whose user agent matches the test of
`checkMobile`, the effect run after the first render requests the camera
unconstrained, not with the facing preference `environment`; `isMobile` is
only true from the next render on. -/
theorem mount_on_mobile_unconstrained :
    isMobileDevice mobileNavigator.userAgent = true
    ∧ (useEffectBody mobileNavigator initialState).mediaRequests = [.unconstrained]
    ∧ (useEffectBody mobileNavigator initialState).mediaRequests
        ≠ [.facing initialState.facingMode]
    ∧ (useEffectBody mobileNavigator initialState).state.isMobile = true
    ∧ (useEffectBody mobileNavigator
        (handleSwitchCamera (useEffectBody mobileNavigator initialState).state)).mediaRequests
        = [.facing "user".toList] := by
  decide

/-- Claim C10: in every state, whether a prompt is stored or not and whether
`handleInstallClick` has run or not, handling `appinstalled` hides the install
affordance and touches no other cell; and after `handleInstallClick` with a
stored prompt, once the choice of the user has resolved, whatever its outcome,
the stored prompt is cleared and the affordance is hidden. -/
theorem install_prompt_cleared (s : State) (outcome : JSString) :
    (handleAppInstalled s).showInstallPrompt = false
    ∧ handleAppInstalled s = { s with showInstallPrompt := false }
    ∧ (handleAppInstalled (handleInstallClick outcome s).state).showInstallPrompt = false
    ∧ (∀ e, s.deferredPrompt = some e →
        (handleInstallClick outcome s).state.deferredPrompt = none
        ∧ (handleInstallClick outcome s).state.showInstallPrompt = false
        ∧ (handleInstallClick outcome s).effects.head? = some (.prompt e)) := by
  refine ⟨rfl, rfl, rfl, ?_⟩
  intro e hstored
  simp [handleInstallClick, hstored]

/-- Witness of C10: `appinstalled` in a state that shows the affordance with no
prompt stored and no click made, and a prompt stored by
`handleBeforeInstallPrompt` that the user dismisses. -/
theorem install_prompt_cleared_witness :
    ({ initialState with showInstallPrompt := true } : State).deferredPrompt = none
    ∧ (handleAppInstalled { initialState with showInstallPrompt := true }).showInstallPrompt
        = false
    ∧ (handleBeforeInstallPrompt { id := 1 } initialState).state.deferredPrompt
        = some { id := 1 }
    ∧ (handleAppInstalled
        (handleBeforeInstallPrompt { id := 1 } initialState).state).showInstallPrompt = false
    ∧ (handleInstallClick "dismissed".toList
        (handleBeforeInstallPrompt { id := 1 } initialState).state).state.deferredPrompt = none
    ∧ (handleInstallClick "dismissed".toList
        (handleBeforeInstallPrompt { id := 1 } initialState).state).state.showInstallPrompt
        = false :=
  ⟨rfl,
   (install_prompt_cleared { initialState with showInstallPrompt := true }
     "dismissed".toList).1,
   rfl,
   (install_prompt_cleared (handleBeforeInstallPrompt { id := 1 } initialState).state
     "dismissed".toList).1,
   ((install_prompt_cleared (handleBeforeInstallPrompt { id := 1 } initialState).state
     "dismissed".toList).2.2.2 { id := 1 } rfl).1,
   ((install_prompt_cleared (handleBeforeInstallPrompt { id := 1 } initialState).state
     "dismissed".toList).2.2.2 { id := 1 } rfl).2.1⟩

end CameraCapture
